import Mathlib

/-!
Shallow embedding of the core of the `rusted_open` 2D rendering framework:
the animation engine (`animation.rs`), the drawable entity
(`graphics_object.rs`), the scene registry (`master_graphics_list.rs`)
and the camera (`camera.rs`).

Modelling conventions:
* Rust `f32` values are modelled as exact rationals (`ℚ`); the claims under
  study only involve dyadic constants and algebraic identities for which
  `f32` arithmetic is exact or the idealisation is standard.
* Rust `usize` is modelled as `ℕ`; subtraction underflow and division /
  remainder by zero are Rust panics, so every operation that can reach one
  of those returns an `Option`, `none` marking the panic.
* GPU side effects (VAO/VBO uploads, uniform writes, draw submission) do
  not change the CPU-visible state of an entity; they are noted in comments
  and elided.  `nalgebra` matrix constructors are modelled symbolically by
  the free algebra `Mat4` of exactly the constructors the code uses.
* The `HashMap` of the registry is modelled as an association list with
  insert-replaces-key semantics, the standard extensional model.
-/

namespace RustedOpen

/-- Truncation toward zero on `ℚ`, as Rust float-to-int truncation and the
`f32` remainder use. -/
def ratTrunc (q : ℚ) : ℤ :=
  if 0 ≤ q then ⌊q⌋ else ⌈q⌉

/-- Rust `%` on `f32` (IEEE remainder with the sign of the dividend):
`x % y = x - y * trunc (x / y)`.  Exact for the uses in this code. -/
def rustRem (x y : ℚ) : ℚ :=
  x - y * (ratTrunc (x / y) : ℚ)

/-- Rust `f32::clamp(lo, hi)`: `lo` if below, `hi` if above, else the input
(`lo ≤ hi` is asserted by Rust and holds at the single call site). -/
def rustClamp (x lo hi : ℚ) : ℚ :=
  if x < lo then lo else if x > hi then hi else x

/-- `nalgebra::Vector3<f32>`, components modelled as `ℚ`. -/
structure Vec3 where
  x : ℚ
  y : ℚ
  z : ℚ
deriving DecidableEq, Repr

/-- `nalgebra::Matrix4<f32>` as the free algebra of the constructors the
code applies; the claims never inspect matrix entries, only which matrix an
update stores. -/
inductive Mat4 where
  | identity : Mat4
  | translation (v : Vec3) : Mat4
  | rotationZ (angle : ℚ) : Mat4
  | scaling (s : ℚ) : Mat4
  | mul (a b : Mat4) : Mat4
deriving DecidableEq, Repr

/-- `std::ops::Range<usize>`, the `frame_range` type: `[start, end)`. -/
structure Range where
  start : ℕ
  «end» : ℕ
deriving DecidableEq, Repr

/-- `animation_config.rs`: `AnimationConfig`. -/
structure AnimationConfig where
  looping : Bool
  mode : String
  frame_range : Range
  frame_duration : ℚ
deriving DecidableEq, Repr

/-- `atlas_config.rs`: `AtlasConfig`. -/
structure AtlasConfig where
  current_frame : ℕ
  atlas_columns : ℕ
  atlas_rows : ℕ
  columns_wide : ℕ
  rows_tall : ℕ
deriving DecidableEq, Repr

/-- `animation.rs::forward_animation`.  Returns the (possibly mutated)
atlas config together with the returned frame; `none` marks a Rust panic
(`% 0` when `end = start` in the looping wrap, `end - 1` underflow when
`end = 0` in the non-looping clamp). -/
def forward_animation (frame_advance : ℕ) (atlas_config : AtlasConfig)
    (animation_config : AnimationConfig) : Option (AtlasConfig × ℕ) :=
  if atlas_config.current_frame < animation_config.frame_range.start then
    let a := { atlas_config with current_frame := animation_config.frame_range.start }
    some (a, a.current_frame)
  else
    let new_frame := atlas_config.current_frame + frame_advance
    if animation_config.looping then
      if new_frame ≥ animation_config.frame_range.«end» then
        if animation_config.frame_range.«end» - animation_config.frame_range.start = 0 then
          none
        else
          some (atlas_config, animation_config.frame_range.start +
            (new_frame - animation_config.frame_range.start) %
              (animation_config.frame_range.«end» - animation_config.frame_range.start))
      else
        some (atlas_config, new_frame)
    else
      if new_frame ≥ animation_config.frame_range.«end» then
        if animation_config.frame_range.«end» = 0 then
          none
        else
          some (atlas_config, animation_config.frame_range.«end» - 1)
      else
        some (atlas_config, new_frame)

/-- `animation.rs::backward_animation`.  `none` marks a Rust panic: the
unguarded `usize` subtraction `end - (frame_advance - current_frame)`
underflows when `frame_advance - current_frame > end`, and the looping
wrap takes `% (end - start)` which is `% 0` when `end = start`. -/
def backward_animation (frame_advance : ℕ) (atlas_config : AtlasConfig)
    (animation_config : AnimationConfig) : Option (AtlasConfig × ℕ) :=
  if atlas_config.current_frame > animation_config.frame_range.«end» then
    let a := { atlas_config with current_frame := animation_config.frame_range.«end» }
    some (a, a.current_frame)
  else
    (if atlas_config.current_frame ≥ frame_advance then
       some (atlas_config.current_frame - frame_advance)
     else if frame_advance - atlas_config.current_frame > animation_config.frame_range.«end» then
       none
     else
       some (animation_config.frame_range.«end» -
         (frame_advance - atlas_config.current_frame))).bind fun new_frame =>
    if animation_config.looping then
      if new_frame < animation_config.frame_range.start then
        if animation_config.frame_range.«end» - animation_config.frame_range.start = 0 then
          none
        else
          some (atlas_config, animation_config.frame_range.«end» -
            (animation_config.frame_range.start - new_frame) %
              (animation_config.frame_range.«end» - animation_config.frame_range.start))
      else
        some (atlas_config, new_frame)
    else
      if new_frame < animation_config.frame_range.start then
        some (atlas_config, animation_config.frame_range.start)
      else
        some (atlas_config, new_frame)

/-- `graphics_object.rs::Generic2DGraphicsObject`.  The GPU handle fields
(`vao`, `position_vbo`, `tex_vbo`) carry no CPU-visible state relevant to
the claims and are elided; `shader_program` is kept as an opaque id. -/
structure Generic2DGraphicsObject where
  name : String
  vertex_data : List ℚ
  texture_coords : List ℚ
  shader_program : ℕ
  position : Vec3
  rotation : ℚ
  scale : ℚ
  model_matrix : Mat4
  uses_atlas : Bool
  current_frame : ℕ
  num_frames : ℕ
  frame_duration : ℚ
  elapsed_time : ℚ
  atlas_columns : ℕ
  atlas_rows : ℕ
  frame_width : ℚ
  frame_height : ℚ
deriving DecidableEq, Repr

namespace Generic2DGraphicsObject

/-- `FULL_ROTATION = 2.0 * std::f32::consts::PI`, the exact value of the
`f32` constant `2π` (`π` as `f32` is `13176795 / 2^22`; doubling is exact). -/
def FULL_ROTATION : ℚ := 13176795 / 2097152

/-- `update_model_matrix`: stores
`translation(position) * rotation_z(rotation) * scale(scale)`. -/
def update_model_matrix (o : Generic2DGraphicsObject) : Generic2DGraphicsObject :=
  { o with model_matrix :=
      (Mat4.mul (Mat4.mul (Mat4.translation o.position) (Mat4.rotationZ o.rotation))
        (Mat4.scaling o.scale)) }

/-- `update_texture_coords`: recomputes the quad's four UV pairs from
`(current_frame % atlas_columns, current_frame / atlas_columns)` scaled by
`frame_width` / `frame_height`, then pushes them to the texture VBO (GPU
side effect, elided).  `none` marks the Rust `% 0` / `/ 0` panic when
`atlas_columns = 0`. -/
def update_texture_coords (o : Generic2DGraphicsObject) :
    Option Generic2DGraphicsObject :=
  if o.atlas_columns = 0 then none
  else
    let frame_x : ℚ := (o.current_frame % o.atlas_columns : ℕ)
    let frame_y : ℚ := (o.current_frame / o.atlas_columns : ℕ)
    let u1 := frame_x * o.frame_width
    let v1 := frame_y * o.frame_height
    let u2 := u1 + o.frame_width
    let v2 := v1 + o.frame_height
    some { o with texture_coords := [u2, v1, u2, v2, u1, v2, u1, v1] }

/-- `update_animation(delta_time)`: when `uses_atlas` and
`frame_duration > 0`, accumulates `elapsed_time`, computes
`frame_advance = floor(elapsed_time / frame_duration) as usize` (the cast
saturates negatives to `0`), sets
`current_frame = (current_frame + frame_advance) % num_frames` and keeps
`elapsed_time % frame_duration`; then (for any atlas) recomputes texture
coordinates and re-uploads the frame uniform (GPU side effect, elided).
`none` marks the Rust `% 0` panic when `num_frames = 0`, or the panic
inside `update_texture_coords`. -/
def update_animation (o : Generic2DGraphicsObject) (delta_time : ℚ) :
    Option Generic2DGraphicsObject :=
  if o.uses_atlas then
    (if 0 < o.frame_duration then
       let elapsed := o.elapsed_time + delta_time
       let frame_advance := (⌊elapsed / o.frame_duration⌋).toNat
       if o.num_frames = 0 then none
       else
         some { o with
           current_frame := (o.current_frame + frame_advance) % o.num_frames,
           elapsed_time := rustRem elapsed o.frame_duration }
     else some o).bind update_texture_coords
  else some o

/-- `set_position`. -/
def set_position (o : Generic2DGraphicsObject) (position : Vec3) :
    Generic2DGraphicsObject :=
  { o with position := position }

/-- `set_rotation`: stores `rotation % FULL_ROTATION` (Rust `f32 %`). -/
def set_rotation (o : Generic2DGraphicsObject) (rotation : ℚ) :
    Generic2DGraphicsObject :=
  { o with rotation := rustRem rotation FULL_ROTATION }

/-- `set_scale`. -/
def set_scale (o : Generic2DGraphicsObject) (scale : ℚ) :
    Generic2DGraphicsObject :=
  { o with scale := scale }

/-- `get_name`. -/
def get_name (o : Generic2DGraphicsObject) : String := o.name

/-- `get_position`. -/
def get_position (o : Generic2DGraphicsObject) : Vec3 := o.position

/-- `get_rotation`. -/
def get_rotation (o : Generic2DGraphicsObject) : ℚ := o.rotation

/-- `get_scale`. -/
def get_scale (o : Generic2DGraphicsObject) : ℚ := o.scale

/-- `get_model_matrix`. -/
def get_model_matrix (o : Generic2DGraphicsObject) : Mat4 := o.model_matrix

end Generic2DGraphicsObject

/-- `master_graphics_list.rs::MasterGraphicsList`: the
`HashMap<String, Arc<RwLock<Generic2DGraphicsObject>>>` modelled as an
association list with insert-replaces-key semantics. -/
structure MasterGraphicsList where
  objects : List (String × Generic2DGraphicsObject)
deriving DecidableEq, Repr

namespace MasterGraphicsList

/-- `new`. -/
def new : MasterGraphicsList := ⟨[]⟩

/-- `add_object`: keys the object by its own `get_name()`; `HashMap::insert`
replaces any entry under the same key. -/
def add_object (l : MasterGraphicsList) (obj : Generic2DGraphicsObject) :
    MasterGraphicsList :=
  ⟨(obj.get_name, obj) :: l.objects.filter (fun p => p.1 ≠ obj.get_name)⟩

/-- `get_object`: lookup by name, `none` when absent. -/
def get_object (l : MasterGraphicsList) (name : String) :
    Option Generic2DGraphicsObject :=
  (l.objects.find? (fun p => p.1 = name)).map Prod.snd

/-- `remove_object`: `HashMap::remove` by name. -/
def remove_object (l : MasterGraphicsList) (name : String) :
    MasterGraphicsList :=
  ⟨l.objects.filter (fun p => p.1 ≠ name)⟩

/-- `remove_all`. -/
def remove_all (_l : MasterGraphicsList) : MasterGraphicsList := ⟨[]⟩

/-- `draw_all(projection_matrix)`: for every object whose write lock is
available (always, in the single-threaded model) runs
`update_model_matrix`, then `apply_transform(projection_matrix)` and
`draw()` — both pure GPU submissions with no CPU-visible state change. -/
def draw_all (l : MasterGraphicsList) (_projection_matrix : Mat4) :
    MasterGraphicsList :=
  ⟨l.objects.map (fun p => (p.1, p.2.update_model_matrix))⟩

end MasterGraphicsList

/-- `camera.rs::Camera`. -/
structure Camera where
  position : Vec3
  tracking_target : Option String
  smoothing_factor : ℚ
deriving DecidableEq, Repr

namespace Camera

/-- `new(smoothing_factor)`. -/
def new (smoothing_factor : ℚ) : Camera :=
  ⟨⟨0, 0, 1⟩, none, smoothing_factor⟩

/-- `update_position(graphics_list)`: when the tracking target is set and
resolves, exponentially smooths `position.x`/`position.y` toward the
target's position; otherwise leaves the camera untouched. -/
def update_position (c : Camera) (graphics_list : MasterGraphicsList) : Camera :=
  match c.tracking_target with
  | some tracking_target =>
    match graphics_list.get_object tracking_target with
    | some target =>
      let target_position := target.get_position
      { c with position :=
          ⟨c.position.x + (target_position.x - c.position.x) * c.smoothing_factor,
           c.position.y + (target_position.y - c.position.y) * c.smoothing_factor,
           c.position.z⟩ }
    | none => c
  | none => c

/-- `reset_position`. -/
def reset_position (c : Camera) : Camera :=
  { c with position := ⟨0, 0, 0⟩ }

/-- `set_tracking_target`. -/
def set_tracking_target (c : Camera) (tracking_target : Option String) : Camera :=
  { c with tracking_target := tracking_target }

/-- `set_smoothing_factor`. -/
def set_smoothing_factor (c : Camera) (smoothing_factor : ℚ) : Camera :=
  { c with smoothing_factor := smoothing_factor }

/-- `get_position`. -/
def get_position (c : Camera) : Vec3 := c.position

/-- `set_zoom`: stores `zoom.clamp(0.1, 5.0)` in `position.z`. -/
def set_zoom (c : Camera) (zoom : ℚ) : Camera :=
  { c with position := ⟨c.position.x, c.position.y, rustClamp zoom (1/10) 5⟩ }

/-- `get_zoom`. -/
def get_zoom (c : Camera) : ℚ := c.position.z

end Camera

/-- Modelled from the spec (§4.3, `draw_all`): the per-entity draw step the
spec describes — update the entity's animation with `delta_time`, then its
model matrix, then issue transform and draw.  Used only to compare the
spec's description of `draw_all` against the code's `draw_all`. -/
def draw_step_spec (o : Generic2DGraphicsObject) (delta_time : ℚ) :
    Option Generic2DGraphicsObject :=
  (o.update_animation delta_time).map Generic2DGraphicsObject.update_model_matrix

/-- Concrete animated entity used as a test input: a 3×2 atlas of 6 frames
currently on frame 2, 0.1 s per frame, no accumulated time. -/
def animatedEntity : Generic2DGraphicsObject where
  name := "e"
  vertex_data := []
  texture_coords := []
  shader_program := 0
  position := ⟨0, 0, 0⟩
  rotation := 0
  scale := 1
  model_matrix := Mat4.identity
  uses_atlas := true
  current_frame := 2
  num_frames := 6
  frame_duration := 1/10
  elapsed_time := 0
  atlas_columns := 3
  atlas_rows := 2
  frame_width := 1/3
  frame_height := 1/2

/-- Concrete entity with `num_frames = 1` but `atlas_columns = 0`: the
divisor in `update_texture_coords` is zero. -/
def zeroColumnsEntity : Generic2DGraphicsObject :=
  { animatedEntity with name := "z", num_frames := 1, atlas_columns := 0 }

/-- Concrete entity with `num_frames = 0`: the divisor of the frame
remainder in `update_animation` is zero. -/
def zeroFramesEntity : Generic2DGraphicsObject :=
  { animatedEntity with name := "n", num_frames := 0 }

/-- Concrete tracked entity sitting at `(5, 5, w)`. -/
def trackedEntity (w : ℚ) : Generic2DGraphicsObject :=
  { animatedEntity with
      name := "t"
      uses_atlas := false
      position := ⟨5, 5, w⟩ }

/-- Concrete camera fixture: at `(0,0,7)`, smoothing `1/2`, tracking `"t"`. -/
def witnessCam : Camera := ⟨⟨0, 0, 7⟩, some "t", 1/2⟩

/-- Concrete registry fixture holding only the tracked entity at `(5,5,3)`. -/
def witnessList : MasterGraphicsList := ⟨[("t", trackedEntity 3)]⟩

/-! ## Helper lemmas -/

theorem ratTrunc_eq_zero {q : ℚ} (h1 : -1 < q) (h2 : q < 1) : ratTrunc q = 0 := by
  unfold ratTrunc
  by_cases h : 0 ≤ q
  · rw [if_pos h]
    exact Int.floor_eq_zero_iff.mpr ⟨h, h2⟩
  · rw [if_neg h]
    exact Int.ceil_eq_zero_iff.mpr ⟨h1, le_of_not_le h⟩

theorem rustRem_bounds (x t : ℚ) (ht : 0 < t) :
    -t < rustRem x t ∧ rustRem x t < t := by
  have htne : t ≠ 0 := ne_of_gt ht
  have hx : rustRem x t = t * (x / t - (ratTrunc (x / t) : ℚ)) := by
    unfold rustRem
    field_simp
  rw [hx]
  unfold ratTrunc
  by_cases hq : 0 ≤ x / t
  · rw [if_pos hq]
    have h0 : (0 : ℚ) ≤ x / t - ⌊x / t⌋ := sub_nonneg.mpr (Int.floor_le _)
    have h1 : x / t - ⌊x / t⌋ < 1 := by
      have := Int.sub_one_lt_floor (x / t)
      linarith
    constructor
    · nlinarith
    · nlinarith
  · rw [if_neg hq]
    have h0 : x / t - ⌈x / t⌉ ≤ 0 := sub_nonpos.mpr (Int.le_ceil _)
    have h1 : -1 < x / t - ⌈x / t⌉ := by
      have := Int.ceil_lt_add_one (x / t)
      linarith
    constructor
    · nlinarith
    · nlinarith

theorem rustRem_rustRem (x t : ℚ) (ht : 0 < t) :
    rustRem (rustRem x t) t = rustRem x t := by
  have htne : t ≠ 0 := ne_of_gt ht
  obtain ⟨hlo, hhi⟩ := rustRem_bounds x t ht
  have h1 : rustRem x t / t < 1 := (div_lt_one ht).mpr hhi
  have h2 : -1 < rustRem x t / t := by
    rw [lt_div_iff₀ ht]
    linarith
  have htr : ratTrunc (rustRem x t / t) = 0 := ratTrunc_eq_zero h2 h1
  conv_lhs => rw [rustRem]
  rw [htr]
  push_cast
  ring

theorem find?_filter_ne (xs : List (String × Generic2DGraphicsObject)) (n : String) :
    (xs.filter (fun p => p.1 ≠ n)).find? (fun p => p.1 = n) = none := by
  induction xs with
  | nil => rfl
  | cons a tl ih =>
    by_cases h : a.1 = n
    · simp [List.filter_cons, h, ih]
    · simp [List.filter_cons, List.find?, h, ih]

theorem find?_map_update (f : Generic2DGraphicsObject → Generic2DGraphicsObject)
    (xs : List (String × Generic2DGraphicsObject)) (n : String) :
    ((xs.map (fun p => (p.1, f p.2))).find? (fun p => p.1 = n)).map Prod.snd
      = ((xs.find? (fun p => p.1 = n)).map Prod.snd).map f := by
  induction xs with
  | nil => rfl
  | cons a tl ih =>
    rw [List.map_cons]
    by_cases h : a.1 = n
    · rw [List.find?_cons_of_pos _ (by simpa using h),
        List.find?_cons_of_pos _ (by simpa using h)]
      rfl
    · rw [List.find?_cons_of_neg _ (by simpa using h),
        List.find?_cons_of_neg _ (by simpa using h)]
      exact ih

/-! ## Claim theorems -/

/-- Claim C6: for every input `z`, `set_zoom z` stores `z` clamped to
`[0.1, 5.0]` in the position's third component, so `get_zoom` afterwards is
in `[0.1, 5.0]`; in particular `set_zoom 10` yields `get_zoom = 5` and
`set_zoom (-1)` yields `get_zoom = 0.1`. -/
theorem set_zoom_clamps (c : Camera) (z : ℚ) :
    (c.set_zoom z).get_zoom = rustClamp z (1/10) 5 ∧
    1/10 ≤ (c.set_zoom z).get_zoom ∧ (c.set_zoom z).get_zoom ≤ 5 ∧
    (c.set_zoom 10).get_zoom = 5 ∧ (c.set_zoom (-1)).get_zoom = 1/10 := by
  refine ⟨rfl, ?_, ?_, by norm_num [Camera.set_zoom, Camera.get_zoom, rustClamp],
    by norm_num [Camera.set_zoom, Camera.get_zoom, rustClamp]⟩
  · show (1:ℚ)/10 ≤ rustClamp z (1/10) 5
    unfold rustClamp
    split_ifs <;> linarith
  · show rustClamp z (1/10) 5 ≤ 5
    unfold rustClamp
    split_ifs <;> linarith

/-- Claim C8: `set_rotation` is idempotent on its own output: after
`set_rotation x`, calling `set_rotation (get_rotation ())` leaves the stored
rotation unchanged. -/
theorem set_rotation_idem (o : Generic2DGraphicsObject) (x : ℚ) :
    ((o.set_rotation x).set_rotation ((o.set_rotation x).get_rotation)).rotation
      = (o.set_rotation x).rotation := by
  show rustRem (rustRem x Generic2DGraphicsObject.FULL_ROTATION)
      Generic2DGraphicsObject.FULL_ROTATION
    = rustRem x Generic2DGraphicsObject.FULL_ROTATION
  exact rustRem_rustRem _ _ (by norm_num [Generic2DGraphicsObject.FULL_ROTATION])

/-- Claim C9: registry round-trip — after `add_object e`, `get_object` at
`e`'s name returns an entity with `e`'s pose (position, rotation, scale);
after `remove_object` at that name, `get_object` returns `none`, and such
absence is an ordinary `Option`, not an error. -/
theorem registry_round_trip (l : MasterGraphicsList) (e : Generic2DGraphicsObject) :
    (∃ e', (l.add_object e).get_object e.get_name = some e' ∧
      e'.get_position = e.get_position ∧ e'.get_rotation = e.get_rotation ∧
      e'.get_scale = e.get_scale) ∧
    (l.remove_object e.get_name).get_object e.get_name = none := by
  constructor
  · refine ⟨e, ?_, rfl, rfl, rfl⟩
    unfold MasterGraphicsList.add_object MasterGraphicsList.get_object
    rw [List.find?_cons_of_pos _ (by simp)]
    rfl
  · unfold MasterGraphicsList.remove_object MasterGraphicsList.get_object
    rw [find?_filter_ne]
    rfl

/-- Claim C7: if the camera's tracking target is unset, or set to an id that
does not resolve in the registry, `update_position` leaves the camera
position (all three components) exactly unchanged. -/
theorem update_position_no_target_noop (c : Camera) (l : MasterGraphicsList)
    (h : c.tracking_target = none ∨
      ∃ t, c.tracking_target = some t ∧ l.get_object t = none) :
    (c.update_position l).get_position = c.get_position := by
  rcases h with h | ⟨t, h1, h2⟩
  · simp [Camera.update_position, h]
  · simp [Camera.update_position, h1, h2]

/-- Witness for C7 at a camera with no tracking target. -/
theorem update_position_no_target_noop_witness :
    (Camera.update_position ⟨⟨1, 2, 3⟩, none, 1/2⟩ ⟨[]⟩).get_position
      = Camera.get_position ⟨⟨1, 2, 3⟩, none, 1/2⟩ :=
  update_position_no_target_noop ⟨⟨1, 2, 3⟩, none, 1/2⟩ ⟨[]⟩ (Or.inl rfl)

/-- Claim C2, counterexample: `draw_all` leaves an animated entity's frame
at `2`, while the claimed per-entity step (animation update with
`delta_time = 0.3`, then model-matrix update) would move it to `5` —
`draw_all` neither takes a `delta_time` nor updates animation. -/
theorem draw_all_no_animation_cex :
    ((MasterGraphicsList.draw_all ⟨[("e", animatedEntity)]⟩ Mat4.identity).get_object "e").map
        (fun o => o.current_frame) = some 2 ∧
    (draw_step_spec animatedEntity (3/10)).map (fun o => o.current_frame) = some 5 ∧
    (2 : ℕ) ≠ 5 := by
  refine ⟨by decide, ?_, by decide⟩
  norm_num [draw_step_spec, Generic2DGraphicsObject.update_animation,
    Generic2DGraphicsObject.update_texture_coords,
    Generic2DGraphicsObject.update_model_matrix, animatedEntity, Int.toNat_ofNat]
  decide

/-- Claim C2, amended: `draw_all(projection_matrix)` takes no `delta_time`;
for every entity it updates the model matrix (storing
`translation * rotation_z * scale`) and issues transform and draw with the
given projection matrix, leaving the animation state (`current_frame`,
`elapsed_time`) unchanged. -/
theorem draw_all_model_matrix_only (l : MasterGraphicsList) (m : Mat4) (name : String) :
    (l.draw_all m).get_object name
      = (l.get_object name).map Generic2DGraphicsObject.update_model_matrix ∧
    ∀ o : Generic2DGraphicsObject,
      o.update_model_matrix.current_frame = o.current_frame ∧
      o.update_model_matrix.elapsed_time = o.elapsed_time ∧
      o.update_model_matrix.model_matrix
        = Mat4.mul (Mat4.mul (Mat4.translation o.position) (Mat4.rotationZ o.rotation))
            (Mat4.scaling o.scale) := by
  constructor
  · exact find?_map_update Generic2DGraphicsObject.update_model_matrix l.objects name
  · intro o
    exact ⟨rfl, rfl, rfl⟩

/-- Claim C5: when the tracking target resolves, `update_position` adds
`(target.xy - position.xy) * smoothing_factor` to `position.xy` and leaves
`position.z` unchanged; tracking a target at `(5,5,w)` with smoothing `0.5`
from `(0,0,z)` gives `(2.5, 2.5, z)` after one update and `(3.75, 3.75, z)`
after a second, converging monotonically without overshoot. -/
theorem camera_tracking_smoothing (c : Camera) (l : MasterGraphicsList)
    (t : String) (target : Generic2DGraphicsObject)
    (h1 : c.tracking_target = some t) (h2 : l.get_object t = some target) :
    ((c.update_position l).get_position.x
        = c.get_position.x + (target.get_position.x - c.get_position.x) * c.smoothing_factor ∧
      (c.update_position l).get_position.y
        = c.get_position.y + (target.get_position.y - c.get_position.y) * c.smoothing_factor ∧
      (c.update_position l).get_position.z = c.get_position.z) ∧
    (0 < c.smoothing_factor → c.smoothing_factor ≤ 1 →
      |(c.update_position l).get_position.x - target.get_position.x|
          ≤ |c.get_position.x - target.get_position.x| ∧
      0 ≤ ((c.update_position l).get_position.x - target.get_position.x)
          * (c.get_position.x - target.get_position.x) ∧
      |(c.update_position l).get_position.y - target.get_position.y|
          ≤ |c.get_position.y - target.get_position.y| ∧
      0 ≤ ((c.update_position l).get_position.y - target.get_position.y)
          * (c.get_position.y - target.get_position.y)) ∧
    (∀ z w : ℚ,
      (Camera.update_position ⟨⟨0, 0, z⟩, some "t", 1/2⟩
          ⟨[("t", trackedEntity w)]⟩).get_position = ⟨5/2, 5/2, z⟩ ∧
      ((Camera.update_position ⟨⟨0, 0, z⟩, some "t", 1/2⟩
          ⟨[("t", trackedEntity w)]⟩).update_position
            ⟨[("t", trackedEntity w)]⟩).get_position = ⟨15/4, 15/4, z⟩) := by
  have hu : c.update_position l =
      { c with position :=
          ⟨c.position.x + (target.get_position.x - c.position.x) * c.smoothing_factor,
           c.position.y + (target.get_position.y - c.position.y) * c.smoothing_factor,
           c.position.z⟩ } := by
    simp only [Camera.update_position, h1, h2]
  have habs : ∀ d s : ℚ, 0 < s → s ≤ 1 →
      |d * (1 - s)| ≤ |d| ∧ 0 ≤ d * (1 - s) * d := by
    intro d s hs0 hs1
    constructor
    · rw [abs_mul, abs_of_nonneg (by linarith : (0:ℚ) ≤ 1 - s)]
      exact mul_le_of_le_one_right (abs_nonneg _) (by linarith)
    · nlinarith [sq_nonneg d]
  refine ⟨⟨by rw [hu]; rfl, by rw [hu]; rfl, by rw [hu]; rfl⟩, ?_, ?_⟩
  · intro hs0 hs1
    rw [hu]
    show |c.position.x + (target.get_position.x - c.position.x) * c.smoothing_factor
        - target.get_position.x| ≤ |c.position.x - target.get_position.x| ∧ _
    have ex : c.position.x + (target.get_position.x - c.position.x) * c.smoothing_factor
        - target.get_position.x
        = (c.position.x - target.get_position.x) * (1 - c.smoothing_factor) := by ring
    have ey : c.position.y + (target.get_position.y - c.position.y) * c.smoothing_factor
        - target.get_position.y
        = (c.position.y - target.get_position.y) * (1 - c.smoothing_factor) := by ring
    refine ⟨?_, ?_, ?_, ?_⟩
    · rw [ex]
      exact (habs _ _ hs0 hs1).1
    · show 0 ≤ (c.position.x + (target.get_position.x - c.position.x) * c.smoothing_factor
          - target.get_position.x) * (c.position.x - target.get_position.x)
      rw [ex]
      exact (habs _ _ hs0 hs1).2
    · show |c.position.y + (target.get_position.y - c.position.y) * c.smoothing_factor
          - target.get_position.y| ≤ |c.position.y - target.get_position.y|
      rw [ey]
      exact (habs _ _ hs0 hs1).1
    · show 0 ≤ (c.position.y + (target.get_position.y - c.position.y) * c.smoothing_factor
          - target.get_position.y) * (c.position.y - target.get_position.y)
      rw [ey]
      exact (habs _ _ hs0 hs1).2
  · intro z w
    have hstep : ∀ a b zz : ℚ,
        Camera.update_position ⟨⟨a, b, zz⟩, some "t", 1/2⟩ ⟨[("t", trackedEntity w)]⟩
          = ⟨⟨a + (5 - a) * (1/2), b + (5 - b) * (1/2), zz⟩, some "t", 1/2⟩ :=
      fun a b zz => rfl
    constructor
    · rw [hstep]
      simp only [Camera.get_position, Vec3.mk.injEq]
      norm_num
    · rw [hstep, hstep]
      simp only [Camera.get_position, Vec3.mk.injEq]
      norm_num

/-- Witness for C5 at a camera at `(0,0,7)` with smoothing `1/2` tracking
the entity named `t` at `(5,5,3)`. -/
theorem camera_tracking_smoothing_witness :
    ((witnessCam.update_position witnessList).get_position.x
        = witnessCam.get_position.x
          + ((trackedEntity 3).get_position.x - witnessCam.get_position.x)
            * witnessCam.smoothing_factor ∧
      (witnessCam.update_position witnessList).get_position.y
        = witnessCam.get_position.y
          + ((trackedEntity 3).get_position.y - witnessCam.get_position.y)
            * witnessCam.smoothing_factor ∧
      (witnessCam.update_position witnessList).get_position.z
        = witnessCam.get_position.z) ∧
    (0 < witnessCam.smoothing_factor → witnessCam.smoothing_factor ≤ 1 →
      |(witnessCam.update_position witnessList).get_position.x
          - (trackedEntity 3).get_position.x|
          ≤ |witnessCam.get_position.x - (trackedEntity 3).get_position.x| ∧
      0 ≤ ((witnessCam.update_position witnessList).get_position.x
            - (trackedEntity 3).get_position.x)
          * (witnessCam.get_position.x - (trackedEntity 3).get_position.x) ∧
      |(witnessCam.update_position witnessList).get_position.y
          - (trackedEntity 3).get_position.y|
          ≤ |witnessCam.get_position.y - (trackedEntity 3).get_position.y| ∧
      0 ≤ ((witnessCam.update_position witnessList).get_position.y
            - (trackedEntity 3).get_position.y)
          * (witnessCam.get_position.y - (trackedEntity 3).get_position.y)) ∧
    (∀ z w : ℚ,
      (Camera.update_position ⟨⟨0, 0, z⟩, some "t", 1/2⟩
          ⟨[("t", trackedEntity w)]⟩).get_position = ⟨5/2, 5/2, z⟩ ∧
      ((Camera.update_position ⟨⟨0, 0, z⟩, some "t", 1/2⟩
          ⟨[("t", trackedEntity w)]⟩).update_position
            ⟨[("t", trackedEntity w)]⟩).get_position = ⟨15/4, 15/4, z⟩) :=
  camera_tracking_smoothing witnessCam witnessList "t" (trackedEntity 3) rfl rfl

/-- Claim C1, counterexample: `update_animation(0.3)` on an entity at frame
`2` moves it to frame `5 = (2 + 3) % 6`, so the frame is not "left
unchanged" for an unrecognised mode (the entity carries no mode at all),
and the result also differs from the Animation Engine's `forward_animation`
dispatch (`frame_range = [1,4)`, advance `3` yields `2`). -/
theorem update_animation_mode_dispatch_cex :
    (animatedEntity.update_animation (3/10)).map
        (fun o => o.current_frame) = some 5 ∧
    forward_animation 3 ⟨2, 3, 2, 1, 1⟩ ⟨true, "forward", ⟨1, 4⟩, 1/10⟩
      = some (⟨2, 3, 2, 1, 1⟩, 2) ∧
    (5 : ℕ) ≠ 2 := by
  refine ⟨?_, by decide, by decide⟩
  norm_num [Generic2DGraphicsObject.update_animation,
    Generic2DGraphicsObject.update_texture_coords, animatedEntity, Int.toNat_ofNat]
  decide

/-- Claim C1, amended: `update_animation(delta_time)` performs no dispatch
on any animation mode and never calls the Animation Engine; whenever
`uses_atlas`, `frame_duration > 0`, `num_frames > 0` and
`atlas_columns > 0`, it accumulates elapsed time, computes
`frame_advance = floor(elapsed_time / frame_duration)` and sets
`current_frame = (current_frame + frame_advance) % num_frames`, keeping the
residual elapsed time. -/
theorem update_animation_ignores_mode (o : Generic2DGraphicsObject) (dt : ℚ)
    (h1 : o.uses_atlas = true) (h2 : 0 < o.frame_duration)
    (h3 : 0 < o.num_frames) (h4 : 0 < o.atlas_columns) :
    ∃ o', o.update_animation dt = some o' ∧
      o'.current_frame
        = (o.current_frame + (⌊(o.elapsed_time + dt) / o.frame_duration⌋).toNat)
            % o.num_frames ∧
      o'.elapsed_time = rustRem (o.elapsed_time + dt) o.frame_duration := by
  have hn : o.num_frames ≠ 0 := Nat.pos_iff_ne_zero.mp h3
  have hc : o.atlas_columns ≠ 0 := Nat.pos_iff_ne_zero.mp h4
  simp [Generic2DGraphicsObject.update_animation,
    Generic2DGraphicsObject.update_texture_coords, h1, h2, hn, hc]

/-- Witness for the amended C1 at the concrete animated entity with
`delta_time = 0.3`. -/
theorem update_animation_ignores_mode_witness :
    ∃ o', animatedEntity.update_animation (3/10) = some o' ∧
      o'.current_frame
        = (animatedEntity.current_frame
            + (⌊(animatedEntity.elapsed_time + 3/10) / animatedEntity.frame_duration⌋).toNat)
            % animatedEntity.num_frames ∧
      o'.elapsed_time
        = rustRem (animatedEntity.elapsed_time + 3/10) animatedEntity.frame_duration :=
  update_animation_ignores_mode animatedEntity (3/10) rfl (by norm_num [animatedEntity])
    (by norm_num [animatedEntity]) (by norm_num [animatedEntity])

/-- Claim C10, counterexample: `zeroColumnsEntity` satisfies the claim's
precondition (`uses_atlas`, `frame_duration > 0`, `num_frames > 0`) yet
`update_animation` panics (`none`), because `update_texture_coords` divides
by `atlas_columns = 0` — so `num_frames > 0` alone does not make the
operation total. -/
theorem update_animation_total_cex :
    zeroColumnsEntity.uses_atlas = true ∧
    0 < zeroColumnsEntity.frame_duration ∧
    0 < zeroColumnsEntity.num_frames ∧
    zeroColumnsEntity.update_animation (1/10) = none := by
  refine ⟨rfl, by norm_num [zeroColumnsEntity, animatedEntity], by decide, ?_⟩
  norm_num [Generic2DGraphicsObject.update_animation,
    Generic2DGraphicsObject.update_texture_coords, zeroColumnsEntity, animatedEntity]

/-- Claim C10, amended: inside `update_animation`, when `uses_atlas` and
`frame_duration > 0`, the new frame is `(current_frame + frame_advance) mod
num_frames`; under the preconditions `num_frames > 0` and
`atlas_columns > 0` the operation is total and the post-state satisfies
`current_frame < num_frames` regardless of any configured frame range,
while for `num_frames = 0` the remainder's division-by-zero error branch is
reached. -/
theorem update_animation_frame_bound (o : Generic2DGraphicsObject) (dt : ℚ) :
    (o.uses_atlas = true → 0 < o.frame_duration → 0 < o.num_frames →
      0 < o.atlas_columns →
      ∃ o', o.update_animation dt = some o' ∧
        o'.current_frame
          = (o.current_frame + (⌊(o.elapsed_time + dt) / o.frame_duration⌋).toNat)
              % o.num_frames ∧
        o'.current_frame < o.num_frames) ∧
    (o.uses_atlas = true → 0 < o.frame_duration → o.num_frames = 0 →
      o.update_animation dt = none) := by
  constructor
  · intro h1 h2 h3 h4
    have hn : o.num_frames ≠ 0 := Nat.pos_iff_ne_zero.mp h3
    have hc : o.atlas_columns ≠ 0 := Nat.pos_iff_ne_zero.mp h4
    have hlt : (o.current_frame + (⌊(o.elapsed_time + dt) / o.frame_duration⌋).toNat)
        % o.num_frames < o.num_frames := Nat.mod_lt _ h3
    simp [Generic2DGraphicsObject.update_animation,
      Generic2DGraphicsObject.update_texture_coords, h1, h2, hn, hc, hlt]
  · intro h1 h2 h3
    simp [Generic2DGraphicsObject.update_animation, h1, h2, h3]

/-- Witness for the amended C10: the totality-and-bound part at the
concrete animated entity, the division-by-zero part at the entity with
`num_frames = 0`. -/
theorem update_animation_frame_bound_witness :
    (∃ o', animatedEntity.update_animation (1/4) = some o' ∧
      o'.current_frame
        = (animatedEntity.current_frame
            + (⌊(animatedEntity.elapsed_time + 1/4) / animatedEntity.frame_duration⌋).toNat)
            % animatedEntity.num_frames ∧
      o'.current_frame < animatedEntity.num_frames) ∧
    zeroFramesEntity.update_animation (1/4) = none :=
  ⟨(update_animation_frame_bound animatedEntity (1/4)).1 rfl
      (by norm_num [animatedEntity]) (by norm_num [animatedEntity])
      (by norm_num [animatedEntity]),
    (update_animation_frame_bound zeroFramesEntity (1/4)).2 rfl
      (by norm_num [zeroFramesEntity, animatedEntity]) rfl⟩

/-- Claim C3, counterexample: with `frame_range = [2,4)`, `looping = false`,
`current_frame = 0` and `frame_advance = 10` we have
`current_frame + frame_advance ≥ end`, yet `forward_animation` returns `2`
(the snap-to-start recovery), not `end - 1 = 3`. -/
theorem forward_animation_snap_cex :
    forward_animation 10 ⟨0, 1, 1, 1, 1⟩ ⟨false, "forward", ⟨2, 4⟩, 1/10⟩
      = some (⟨2, 1, 1, 1, 1⟩, 2) ∧
    2 < 4 ∧ 4 ≤ 0 + 10 ∧ (2 : ℕ) ≠ 4 - 1 := by
  decide

/-- Claim C3, amended: for every frame range with `end > start` and every
`frame_advance`, `forward_animation` returns a frame in `[start, end)`
(looping or not); with `looping = false` it returns exactly `end - 1`
whenever `current_frame ≥ start` and `current_frame + frame_advance ≥ end`
(when `current_frame < start` the snap-to-start recovery returns `start`
instead), and from `current_frame = end - 1` every subsequent non-looping
advance returns `end - 1` again. -/
theorem forward_animation_range (frame_advance : ℕ) (atlas : AtlasConfig)
    (anim : AnimationConfig)
    (h : anim.frame_range.start < anim.frame_range.«end») :
    ∃ a f, forward_animation frame_advance atlas anim = some (a, f) ∧
      anim.frame_range.start ≤ f ∧ f < anim.frame_range.«end» ∧
      (anim.looping = false → anim.frame_range.start ≤ atlas.current_frame →
        anim.frame_range.«end» ≤ atlas.current_frame + frame_advance →
        f = anim.frame_range.«end» - 1) ∧
      (anim.looping = false → atlas.current_frame = anim.frame_range.«end» - 1 →
        f = anim.frame_range.«end» - 1) := by
  unfold forward_animation
  by_cases hc : atlas.current_frame < anim.frame_range.start
  · rw [if_pos hc]
    exact ⟨_, _, rfl, le_refl _, h, fun _ h2 _ => by omega, fun _ h2 => by omega⟩
  · rw [if_neg hc]
    push_neg at hc
    by_cases hl : anim.looping
    · rw [if_pos hl]
      by_cases hge : atlas.current_frame + frame_advance ≥ anim.frame_range.«end»
      · rw [if_pos hge, if_neg (by omega :
          ¬(anim.frame_range.«end» - anim.frame_range.start = 0))]
        have hm : (atlas.current_frame + frame_advance - anim.frame_range.start)
            % (anim.frame_range.«end» - anim.frame_range.start)
            < anim.frame_range.«end» - anim.frame_range.start :=
          Nat.mod_lt _ (by omega)
        exact ⟨_, _, rfl, Nat.le_add_right _ _, by omega,
          fun hlf => absurd hlf (by simp [hl]), fun hlf => absurd hlf (by simp [hl])⟩
      · rw [if_neg hge]
        exact ⟨_, _, rfl, by omega, by omega,
          fun hlf => absurd hlf (by simp [hl]), fun hlf => absurd hlf (by simp [hl])⟩
    · rw [if_neg hl]
      by_cases hge : atlas.current_frame + frame_advance ≥ anim.frame_range.«end»
      · rw [if_pos hge, if_neg (by omega : ¬(anim.frame_range.«end» = 0))]
        exact ⟨_, _, rfl, by omega, by omega, fun _ _ _ => rfl, fun _ _ => rfl⟩
      · rw [if_neg hge]
        exact ⟨_, _, rfl, by omega, by omega, fun _ _ hge2 => by omega,
          fun _ hcf => by omega⟩

/-- Witness for the amended C3 at `frame_advance = 3`, `current_frame = 2`,
`frame_range = [1,4)`, looping. -/
theorem forward_animation_range_witness :
    ∃ a f, forward_animation 3 ⟨2, 3, 2, 1, 1⟩ ⟨true, "forward", ⟨1, 4⟩, 1/10⟩
        = some (a, f) ∧
      1 ≤ f ∧ f < 4 ∧
      (true = false → 1 ≤ 2 → 4 ≤ 2 + 3 → f = 4 - 1) ∧
      (true = false → 2 = 4 - 1 → f = 4 - 1) :=
  forward_animation_range 3 ⟨2, 3, 2, 1, 1⟩ ⟨true, "forward", ⟨1, 4⟩, 1/10⟩
    (by decide)

/-- Claim C4, counterexample: with `frame_range = [0,4)` the subtraction
step `end - (frame_advance - current_frame)` underflows for
`current_frame = 1`, `frame_advance = 10` (`10 - 1 > 4`), so
`backward_animation` panics (`none`) and is not total; moreover with
`looping = false`, from `current_frame = start = 0` an advance of `2`
returns `2`, not `start` — it does not stay at `start`. -/
theorem backward_animation_underflow_cex :
    backward_animation 10 ⟨1, 1, 1, 1, 1⟩ ⟨true, "backward", ⟨0, 4⟩, 1/10⟩ = none ∧
    backward_animation 2 ⟨0, 1, 1, 1, 1⟩ ⟨false, "backward", ⟨0, 4⟩, 1/10⟩
      = some (⟨0, 1, 1, 1, 1⟩, 2) ∧
    (2 : ℕ) ≠ 0 := by
  decide

/-- Claim C4, amended: for every frame range with `end > start` and
`current_frame ≤ end`, `backward_animation` succeeds exactly when
`frame_advance ≤ current_frame + end` — the subtraction step
`end - (frame_advance - current_frame)` underflows the unsigned counter for
larger advances, so the function is not total; every frame it does return
lies in `[start, end]` — never below `start`, but possibly `end` itself,
one past the claimed range; with `looping = false`, from
`current_frame = start` every advance with `frame_advance ≤ start` returns
`start` again (larger advances can instead wrap back into the range
without staying at `start`, as the counterexample's advance `2` from
`start = 0` shows). -/
theorem backward_animation_props (frame_advance : ℕ) (atlas : AtlasConfig)
    (anim : AnimationConfig)
    (h : anim.frame_range.start < anim.frame_range.«end») :
    (atlas.current_frame ≤ anim.frame_range.«end» →
      ((backward_animation frame_advance atlas anim).isSome
        ↔ frame_advance ≤ atlas.current_frame + anim.frame_range.«end»)) ∧
    (∀ a f, backward_animation frame_advance atlas anim = some (a, f) →
      anim.frame_range.start ≤ f ∧ f ≤ anim.frame_range.«end») ∧
    (anim.looping = false → atlas.current_frame = anim.frame_range.start →
      frame_advance ≤ anim.frame_range.start →
      backward_animation frame_advance atlas anim
        = some (atlas, anim.frame_range.start)) := by
  unfold backward_animation
  by_cases hsnap : atlas.current_frame > anim.frame_range.«end»
  · rw [if_pos hsnap]
    refine ⟨fun hce => absurd hce (by omega), ?_, fun _ hcs _ => absurd hcs (by omega)⟩
    intro a f haf
    simp only [Option.some.injEq, Prod.mk.injEq] at haf
    obtain ⟨ha, hf⟩ := haf
    simp only [← hf]
    exact ⟨by omega, by omega⟩
  · rw [if_neg hsnap]
    push_neg at hsnap
    by_cases hcadv : atlas.current_frame ≥ frame_advance
    · rw [if_pos hcadv]
      simp only [Option.some_bind]
      by_cases hl : anim.looping
      · rw [if_pos hl]
        by_cases hlt : atlas.current_frame - frame_advance < anim.frame_range.start
        · rw [if_pos hlt, if_neg (by omega :
            ¬(anim.frame_range.«end» - anim.frame_range.start = 0))]
          have hm : (anim.frame_range.start - (atlas.current_frame - frame_advance))
              % (anim.frame_range.«end» - anim.frame_range.start)
              < anim.frame_range.«end» - anim.frame_range.start :=
            Nat.mod_lt _ (by omega)
          refine ⟨fun _ => by simp; omega, ?_, fun hlf => absurd hlf (by simp [hl])⟩
          intro a f haf
          simp only [Option.some.injEq, Prod.mk.injEq] at haf
          omega
        · rw [if_neg hlt]
          refine ⟨fun _ => by simp; omega, ?_, fun hlf => absurd hlf (by simp [hl])⟩
          intro a f haf
          simp only [Option.some.injEq, Prod.mk.injEq] at haf
          omega
      · rw [if_neg hl]
        by_cases hlt : atlas.current_frame - frame_advance < anim.frame_range.start
        · rw [if_pos hlt]
          refine ⟨fun _ => by simp; omega, ?_, fun _ _ _ => rfl⟩
          intro a f haf
          simp only [Option.some.injEq, Prod.mk.injEq] at haf
          omega
        · rw [if_neg hlt]
          refine ⟨fun _ => by simp; omega, ?_, fun _ hcs hadv => ?_⟩
          · intro a f haf
            simp only [Option.some.injEq, Prod.mk.injEq] at haf
            omega
          · have : atlas.current_frame - frame_advance = anim.frame_range.start := by
              omega
            rw [this]
    · rw [if_neg hcadv]
      push_neg at hcadv
      by_cases hufl : frame_advance - atlas.current_frame > anim.frame_range.«end»
      · rw [if_pos hufl]
        refine ⟨fun hce => ?_, by simp, fun _ _ hadv => absurd hadv (by omega)⟩
        simp only [Option.none_bind, Option.isSome_none]
        constructor
        · intro hfalse
          exact absurd hfalse (by simp)
        · intro hle
          exact absurd hle (by omega)
      · rw [if_neg hufl]
        push_neg at hufl
        simp only [Option.some_bind]
        by_cases hl : anim.looping
        · rw [if_pos hl]
          by_cases hlt : anim.frame_range.«end» - (frame_advance - atlas.current_frame)
              < anim.frame_range.start
          · rw [if_pos hlt, if_neg (by omega :
              ¬(anim.frame_range.«end» - anim.frame_range.start = 0))]
            have hm : (anim.frame_range.start
                - (anim.frame_range.«end» - (frame_advance - atlas.current_frame)))
                % (anim.frame_range.«end» - anim.frame_range.start)
                < anim.frame_range.«end» - anim.frame_range.start :=
              Nat.mod_lt _ (by omega)
            refine ⟨fun _ => by simp; omega, ?_, fun hlf => absurd hlf (by simp [hl])⟩
            intro a f haf
            simp only [Option.some.injEq, Prod.mk.injEq] at haf
            omega
          · rw [if_neg hlt]
            refine ⟨fun _ => by simp; omega, ?_, fun hlf => absurd hlf (by simp [hl])⟩
            intro a f haf
            simp only [Option.some.injEq, Prod.mk.injEq] at haf
            omega
        · rw [if_neg hl]
          by_cases hlt : anim.frame_range.«end» - (frame_advance - atlas.current_frame)
              < anim.frame_range.start
          · rw [if_pos hlt]
            refine ⟨fun _ => by simp; omega, ?_, fun _ _ _ => rfl⟩
            intro a f haf
            simp only [Option.some.injEq, Prod.mk.injEq] at haf
            omega
          · rw [if_neg hlt]
            refine ⟨fun _ => by simp; omega, ?_, fun _ hcs hadv => by omega⟩
            intro a f haf
            simp only [Option.some.injEq, Prod.mk.injEq] at haf
            omega

/-- Witness for the amended C4 at `frame_advance = 1`, `current_frame = 3`,
`frame_range = [1,4)`, non-looping. -/
theorem backward_animation_props_witness :
    (3 ≤ 4 →
      ((backward_animation 1 ⟨3, 1, 1, 1, 1⟩ ⟨false, "backward", ⟨1, 4⟩, 1/10⟩).isSome
        ↔ 1 ≤ 3 + 4)) ∧
    (∀ a f, backward_animation 1 ⟨3, 1, 1, 1, 1⟩ ⟨false, "backward", ⟨1, 4⟩, 1/10⟩
        = some (a, f) → 1 ≤ f ∧ f ≤ 4) ∧
    (false = false → 3 = 1 → 1 ≤ 1 →
      backward_animation 1 ⟨3, 1, 1, 1, 1⟩ ⟨false, "backward", ⟨1, 4⟩, 1/10⟩
        = some (⟨3, 1, 1, 1, 1⟩, 1)) :=
  backward_animation_props 1 ⟨3, 1, 1, 1, 1⟩ ⟨false, "backward", ⟨1, 4⟩, 1/10⟩
    (by decide)

end RustedOpen
